import Mathlib

set_option maxRecDepth 100000

/- Shallow embedding of the request-signing engine (src/services/volcSigner.ts)
   and of the async submit/poll orchestrator of the main application component.
   CryptoJS SHA-256 / HMAC-SHA256 are modelled as executable byte-level
   functions on lists of naturals (bytes), 32-bit words as Nat reduced by an
   explicit mask; JavaScript strings are modelled as Lean strings where only
   well-formed text occurs, and as lists of UTF-16 code units where surrogate
   behaviour matters (the percent-encoder). -/

/- ===== SHA-256 (byte-level, big-endian), as computed by CryptoJS ===== -/

def mask32 : Nat := 4294967295

/-- Right rotation of a 32-bit word. -/
def rotr32 (n x : Nat) : Nat := ((x >>> n) ||| (x <<< (32 - n))) &&& mask32

def smallSigma0 (x : Nat) : Nat := rotr32 7 x ^^^ rotr32 18 x ^^^ (x >>> 3)

def smallSigma1 (x : Nat) : Nat := rotr32 17 x ^^^ rotr32 19 x ^^^ (x >>> 10)

def bigSigma0 (x : Nat) : Nat := rotr32 2 x ^^^ rotr32 13 x ^^^ rotr32 22 x

def bigSigma1 (x : Nat) : Nat := rotr32 6 x ^^^ rotr32 11 x ^^^ rotr32 25 x

def chFn (x y z : Nat) : Nat := (x &&& y) ^^^ ((x ^^^ mask32) &&& z)

def majFn (x y z : Nat) : Nat := (x &&& y) ^^^ (x &&& z) ^^^ (y &&& z)

/-- The sixty-four SHA-256 round constants of FIPS 180-4 (decimal). -/
def sha256K : List Nat :=
  [1116352408, 1899447441, 3049323471, 3921009573, 961987163, 1508970993,
   2453635748, 2870763221, 3624381080, 310598401, 607225278, 1426881987,
   1925078388, 2162078206, 2614888103, 3248222580, 3835390401, 4022224774,
   264347078, 604807628, 770255983, 1249150122, 1555081692, 1996064986,
   2554220882, 2821834349, 2952996808, 3210313671, 3336571891, 3584528711,
   113926993, 338241895, 666307205, 773529912, 1294757372, 1396182291,
   1695183700, 1986661051, 2177026350, 2456956037, 2730485921, 2820302411,
   3259730800, 3345764771, 3516065817, 3600352804, 4094571909, 275423344,
   430227734, 506948616, 659060556, 883997877, 958139571, 1322822218,
   1537002063, 1747873779, 1955562222, 2024104815, 2227730452, 2361852424,
   2428436474, 2756734187, 3204031479, 3329325298]

/-- The eight chaining words of the SHA-256 state. -/
structure H8 where
  ha : Nat
  hb : Nat
  hc : Nat
  hd : Nat
  he : Nat
  hf : Nat
  hg : Nat
  hh : Nat

def sha256Init : H8 :=
  ⟨1779033703, 3144134277, 1013904242, 2773480762,
   1359893119, 2600822924, 528734635, 1541459225⟩

/-- Big-endian 32-bit words from a byte list (length a multiple of 4). -/
def bytesToWords : List Nat → List Nat
  | b0 :: b1 :: b2 :: b3 :: rest =>
      ((b0 <<< 24) ||| (b1 <<< 16) ||| (b2 <<< 8) ||| b3) :: bytesToWords rest
  | _ => []

/-- Message-schedule extension, on the reversed word list (head = newest). -/
def extendRev : Nat → List Nat → List Nat
  | 0, rev => rev
  | n + 1, rev =>
      let w16 := rev.getD 15 0
      let w15 := rev.getD 14 0
      let w7 := rev.getD 6 0
      let w2 := rev.getD 1 0
      extendRev n (((w16 + smallSigma0 w15 + w7 + smallSigma1 w2) &&& mask32) :: rev)

/-- The sixty-four-entry message schedule of one sixteen-word chunk. -/
def msgSchedule (ws : List Nat) : List Nat := (extendRev 48 ws.reverse).reverse

def compressRound (st : H8) (kw : Nat × Nat) : H8 :=
  let t1 := (st.hh + bigSigma1 st.he + chFn st.he st.hf st.hg + kw.1 + kw.2) &&& mask32
  let t2 := (bigSigma0 st.ha + majFn st.ha st.hb st.hc) &&& mask32
  ⟨(t1 + t2) &&& mask32, st.ha, st.hb, st.hc, (st.hd + t1) &&& mask32, st.he, st.hf, st.hg⟩

def compressChunk (st : H8) (chunk : List Nat) : H8 :=
  let ws := msgSchedule (bytesToWords chunk)
  let r := (sha256K.zip ws).foldl compressRound st
  ⟨(st.ha + r.ha) &&& mask32, (st.hb + r.hb) &&& mask32, (st.hc + r.hc) &&& mask32,
   (st.hd + r.hd) &&& mask32, (st.he + r.he) &&& mask32, (st.hf + r.hf) &&& mask32,
   (st.hg + r.hg) &&& mask32, (st.hh + r.hh) &&& mask32⟩

/-- SHA-256 padding: append 0x80, zeros, and the 64-bit big-endian bit length. -/
def sha256Pad (msg : List Nat) : List Nat :=
  let len := msg.length
  let zeros := (119 - len % 64) % 64
  let bits := len * 8
  msg ++ [0x80] ++ List.replicate zeros 0 ++
    [(bits >>> 56) &&& 255, (bits >>> 48) &&& 255, (bits >>> 40) &&& 255, (bits >>> 32) &&& 255,
     (bits >>> 24) &&& 255, (bits >>> 16) &&& 255, (bits >>> 8) &&& 255, bits &&& 255]

/-- Split a byte list into 64-byte chunks (fuel-driven structural recursion;
the fuel `l.length` always suffices since every step consumes 64 bytes). -/
def chunks64Go : Nat → List Nat → List (List Nat)
  | _, [] => []
  | 0, _ => []
  | fuel + 1, x :: xs => ((x :: xs).take 64) :: chunks64Go fuel (xs.drop 63)

def chunks64 (l : List Nat) : List (List Nat) := chunks64Go l.length l

/-- The four big-endian bytes of a 32-bit word. -/
def wordBytes (w : Nat) : List Nat :=
  [(w >>> 24) &&& 255, (w >>> 16) &&& 255, (w >>> 8) &&& 255, w &&& 255]

/-- SHA-256 digest (32 bytes) of a byte list. -/
def sha256Bytes (msg : List Nat) : List Nat :=
  let f := (chunks64 (sha256Pad msg)).foldl compressChunk sha256Init
  wordBytes f.ha ++ wordBytes f.hb ++ wordBytes f.hc ++ wordBytes f.hd ++
    wordBytes f.he ++ wordBytes f.hf ++ wordBytes f.hg ++ wordBytes f.hh

/- ===== Hex encoding (CryptoJS enc.Hex: lowercase) and UTF-8 bytes ===== -/

/-- Lowercase hex digit for a nibble: 0-9 then a-f. -/
def hexDigitChar (n : Nat) : Char :=
  if n < 10 then Char.ofNat (48 + n) else Char.ofNat (87 + n)

def byteHexChars (b : Nat) : List Char := [hexDigitChar (b / 16 % 16), hexDigitChar (b % 16)]

def hexOfBytes (bs : List Nat) : String := ⟨bs.flatMap byteHexChars⟩

/-- UTF-8 bytes of one Unicode code point. -/
def utf8Bytes (n : Nat) : List Nat :=
  if n < 0x80 then [n]
  else if n < 0x800 then [0xC0 ||| (n >>> 6), 0x80 ||| (n &&& 0x3F)]
  else if n < 0x10000 then
    [0xE0 ||| (n >>> 12), 0x80 ||| ((n >>> 6) &&& 0x3F), 0x80 ||| (n &&& 0x3F)]
  else
    [0xF0 ||| (n >>> 18), 0x80 ||| ((n >>> 12) &&& 0x3F),
     0x80 ||| ((n >>> 6) &&& 0x3F), 0x80 ||| (n &&& 0x3F)]

/-- UTF-8 bytes of a (well-formed) string, as CryptoJS enc.Utf8 produces. -/
def strBytes (s : String) : List Nat := s.data.flatMap (fun c => utf8Bytes c.toNat)

/-- Hex SHA-256 digest of a string, `sha256(data).toString(CryptoJS.enc.Hex)`. -/
def sha256hexS (s : String) : String := hexOfBytes (sha256Bytes (strBytes s))

/- ===== HMAC-SHA256 (byte-level), as computed by CryptoJS HmacSHA256 ===== -/

def hmacSHA256 (key msg : List Nat) : List Nat :=
  let k0 := if key.length > 64 then sha256Bytes key else key
  let k := k0 ++ List.replicate (64 - k0.length) 0
  let ipad := k.map (fun b => b ^^^ 0x36)
  let opad := k.map (fun b => b ^^^ 0x5c)
  sha256Bytes (opad ++ sha256Bytes (ipad ++ msg))

/-- FIPS 180-4 test vector: digest of the empty message. -/
example : sha256hexS "" = "e3b0c44298fc1c149afbf4c8996fb92427ae41e4649b934ca495991b7852b855" := by
  decide

/-- FIPS 180-4 test vector: digest of "abc". -/
example : sha256hexS "abc" = "ba7816bf8f01cfea414140de5dae2223b00361a396177a9cb410ff61f20015ad" := by
  decide

/-- RFC 4231 test case 2 for HMAC-SHA256. -/
example :
    hexOfBytes (hmacSHA256 (strBytes "Jefe") (strBytes "what do ya want for nothing?")) =
      "5bdcc146bf60754e6a042426089575c75a003f089d2739839dec58b964ec3843" := by
  decide

/- ===== JavaScript strings as UTF-16 code-unit lists; the percent-encoder ===== -/

abbrev JSStr := List Nat

/-- UTF-16 code units of one code point (astral points become surrogate pairs). -/
def utf16Units (n : Nat) : List Nat :=
  if n < 0x10000 then [n]
  else [0xD800 + ((n - 0x10000) >>> 10), 0xDC00 + ((n - 0x10000) &&& 0x3FF)]

/-- The UTF-16 code units of a well-formed string. -/
def unitsOf (s : String) : JSStr := s.data.flatMap (fun c => utf16Units c.toNat)

/-- Read an ASCII code-unit list back as a string (used only on ASCII output). -/
def strOfUnits (u : JSStr) : String := ⟨u.map Char.ofNat⟩

def isHighSurrogate (u : Nat) : Bool := 0xD800 ≤ u && u ≤ 0xDBFF

def isLowSurrogate (u : Nat) : Bool := 0xDC00 ≤ u && u ≤ 0xDFFF

/-- UTF-8 bytes of a UTF-16 code-unit sequence; `none` exactly when a lone
surrogate is present, the condition under which encodeURIComponent throws
URIError. -/
def utf16ToUtf8 : JSStr → Option (List Nat)
  | [] => some []
  | u :: rest =>
    if isHighSurrogate u then
      match rest with
      | l :: rest2 =>
        if isLowSurrogate l then
          (utf16ToUtf8 rest2).map
            (fun bs => utf8Bytes (0x10000 + ((u - 0xD800) <<< 10) + (l - 0xDC00)) ++ bs)
        else none
      | [] => none
    else if isLowSurrogate u then none
    else (utf16ToUtf8 rest).map (fun bs => utf8Bytes u ++ bs)

/-- A lone (unpaired) surrogate occurs in the code-unit sequence. -/
def hasLoneSurrogate : JSStr → Bool
  | [] => false
  | u :: rest =>
    if isHighSurrogate u then
      match rest with
      | l :: rest2 => if isLowSurrogate l then hasLoneSurrogate rest2 else true
      | [] => true
    else if isLowSurrogate u then true
    else hasLoneSurrogate rest

/-- The strict unreserved set left unescaped by uriEscape:
A-Z a-z 0-9 hyphen dot underscore tilde. -/
def unreservedByte (b : Nat) : Bool :=
  (0x41 ≤ b && b ≤ 0x5A) || (0x61 ≤ b && b ≤ 0x7A) || (0x30 ≤ b && b ≤ 0x39) ||
    b == 0x2D || b == 0x2E || b == 0x5F || b == 0x7E

/-- Uppercase hex digits as ASCII code units. -/
def hexUpper : List Nat :=
  [0x30, 0x31, 0x32, 0x33, 0x34, 0x35, 0x36, 0x37, 0x38, 0x39, 0x41, 0x42, 0x43, 0x44, 0x45, 0x46]

def escByte (b : Nat) : List Nat :=
  if unreservedByte b then [b]
  else [0x25, hexUpper.getD (b / 16 % 16) 0x30, hexUpper.getD (b % 16) 0x30]

/-- uriEscape of volcSigner.ts: encodeURIComponent followed by the two replace
passes; the net effect percent-encodes every UTF-8 byte outside the strict
unreserved set with uppercase hex, and the try/catch turns the URIError thrown
on malformed input into the empty string. -/
def uriEscape (s : JSStr) : JSStr :=
  match utf16ToUtf8 s with
  | none => []
  | some bs => bs.flatMap escByte

/- ===== queryParamsToString (volcSigner.ts lines 53-77) ===== -/

/-- The value universe of the query-parameter record as the callers use it:
absent/undefined, null, a string, or an array of strings. -/
inductive QueryVal where
  | undef : QueryVal
  | vnull : QueryVal
  | vstr : JSStr → QueryVal
  | varr : List JSStr → QueryVal
deriving DecidableEq

/-- `params[key]` on a plain object (keys unique; first match). -/
def jsLookupQ : List (JSStr × QueryVal) → JSStr → Option QueryVal
  | [], _ => none
  | (k0, v0) :: rest, k => if k0 = k then some v0 else jsLookupQ rest k

/-- `array.join(sep)`. -/
def joinU (sep : JSStr) : List JSStr → JSStr
  | [] => []
  | [x] => x
  | x :: y :: rest => x ++ sep ++ joinU sep (y :: rest)

/-- The `key=value` segment contributed for one looked-up value (volcSigner.ts
lines 58-74): undefined/null values and keys that escape to the empty string
contribute the empty string; array values are escaped, sorted, and joined as
repeated pairs. -/
def renderVal (key : JSStr) : Option QueryVal → JSStr
  | none => []
  | some QueryVal.undef => []
  | some QueryVal.vnull => []
  | some (QueryVal.vstr s) =>
      let ek := uriEscape key
      if ek = [] then [] else ek ++ [0x3D] ++ uriEscape s
  | some (QueryVal.varr l) =>
      let ek := uriEscape key
      if ek = [] then []
      else ek ++ [0x3D] ++ joinU ([0x26] ++ ek ++ [0x3D])
        (List.insertionSort (· ≤ ·) (l.map uriEscape))

def renderEntry (params : List (JSStr × QueryVal)) (key : JSStr) : JSStr :=
  renderVal key (jsLookupQ params key)

/-- queryParamsToString with the default `sort = true`: keys sorted (JS default
sort is code-unit lexicographic, here the lexicographic order on `List Nat`),
each key rendered, empty segments dropped, joined by ampersand. -/
def queryParamsToString (params : List (JSStr × QueryVal)) : JSStr :=
  let keys := List.insertionSort (· ≤ ·) (params.map (·.1))
  joinU [0x26] ((keys.map (renderEntry params)).filter (fun s => !s.isEmpty))

example : strOfUnits (uriEscape (unitsOf "a b*~-._")) = "a%20b%2A~-._" := by decide

example : uriEscape [0xD800] = [] := by decide

example : strOfUnits (uriEscape (unitsOf "é")) = "%C3%A9" := by decide

example :
    strOfUnits (queryParamsToString
      [(unitsOf "b", QueryVal.vstr (unitsOf "2")), (unitsOf "a", QueryVal.vstr (unitsOf "1"))]) =
      "a=1&b=2" := by decide

example :
    strOfUnits (queryParamsToString [(unitsOf "k", QueryVal.varr [unitsOf "b", unitsOf "a"])]) =
      "k=a&k=b" := by decide

example : strOfUnits (queryParamsToString [(unitsOf "a", QueryVal.vstr [])]) = "a=" := by decide

example : queryParamsToString [(unitsOf "a", QueryVal.vnull)] = [] := by decide

/- ===== Headers and the signer (volcSigner.ts, VolcSigner) ===== -/

abbrev Headers := List (String × String)

/-- JavaScript `headers[k] = v` on a plain object: overwrite in place, else append. -/
def setHeader : Headers → String → String → Headers
  | [], k, v => [(k, v)]
  | (k0, v0) :: rest, k, v =>
      if k0 = k then (k, v) :: rest else (k0, v0) :: setHeader rest k v

/-- JavaScript `headers[k]` property read. -/
def getHeader : Headers → String → Option String
  | [], _ => none
  | (k0, v0) :: rest, k => if k0 = k then some v0 else getHeader rest k

/-- JavaScript truthy-or-else `a || b` on strings. -/
def jsOrS (a b : String) : String := if a = "" then b else a

/-- `a || b` where `a` may be an undefined property read. -/
def jsOrOptS : Option String → String → String
  | none, b => b
  | some a, b => jsOrS a b

def UNSIGNABLE_HEADERS : List String :=
  ["authorization", "content-type", "content-length", "user-agent",
   "presigned-expires", "expect", "x-amzn-trace-id"]

/-- ASCII whitespace matched by the JS regular expression class (the JS class
also covers some exotic Unicode spaces, which never occur in header values). -/
def isWsChar (c : Char) : Bool :=
  c == ' ' || c == '\t' || c == '\n' || c == '\r' || c == '\x0b' || c == '\x0c'

/-- `.replace(\s+ regex, single space)`: collapse whitespace runs. -/
def collapseWs : Bool → List Char → List Char
  | _, [] => []
  | prevWs, c :: rest =>
      if isWsChar c then
        (if prevWs then [] else [' ']) ++ collapseWs true rest
      else c :: collapseWs false rest

/-- `.toString().trim().replace(\s+ regex, single space)` on a header value. -/
def trimCollapse (s : String) : String :=
  ⟨collapseWs false ((s.data.dropWhile isWsChar).reverse.dropWhile isWsChar).reverse⟩

def lowerKeys (hs : Headers) : List String := hs.map (fun p => p.1.toLower)

/-- Lookup in the lower-cased header map built by forEach assignment: the last
assignment for a lower-cased key wins. -/
def headerMapGet (hs : Headers) (k : String) : String :=
  hs.foldl (fun acc p => if p.1.toLower = k then trimCollapse p.2 else acc) ""

/-- `array.join(sep)` on strings. -/
def joinSepS (sep : String) : List String → String
  | [] => ""
  | [x] => x
  | x :: y :: rest => x ++ sep ++ joinSepS sep (y :: rest)

/-- getCanonicalHeaders: lower-cased keys sorted, deny-list filtered,
`name:value` lines joined by newline. -/
def getCanonicalHeaders (hs : Headers) : String :=
  let sortedKeys := List.insertionSort (· ≤ ·) (lowerKeys hs)
  joinSepS "\n" ((sortedKeys.filter (fun k => !(UNSIGNABLE_HEADERS.contains k))).map
    (fun k => k ++ ":" ++ headerMapGet hs k))

/-- getSignedHeaders: lower-cased keys, deny-list filtered, sorted, joined by
semicolon. -/
def getSignedHeaders (hs : Headers) : String :=
  joinSepS ";" (List.insertionSort (· ≤ ·)
    ((lowerKeys hs).filter (fun k => !(UNSIGNABLE_HEADERS.contains k))))

/-- SignOptions of volcSigner.ts.  A JSON-object body is represented by its
JSON.stringify serialization (the signer stringifies non-string bodies, and
every non-empty string is truthy). -/
structure SignOptions where
  method : String
  pathname : String
  params : List (JSStr × QueryVal)
  headers : Headers
  body : Option String
  region : String
  serviceName : String
  accessKeyId : String
  secretAccessKey : String
  sessionToken : Option String

/-- bodyStr of getSignatureHeaders: empty when body is absent; the falsy check
on the empty string leaves bodyStr empty, which coincides with the string
itself. -/
def bodyStrOf : Option String → String
  | none => ""
  | some s => s

/-- createCanonicalString (volcSigner.ts lines 155-164). -/
def createCanonicalString (o : SignOptions) (hs : Headers) (bodyStr : String) : String :=
  joinSepS "\n"
    [o.method.toUpper,
     jsOrS o.pathname "/",
     jsOrS (strOfUnits (queryParamsToString o.params)) "",
     getCanonicalHeaders hs ++ "\n",
     getSignedHeaders hs,
     jsOrOptS (getHeader hs "X-Content-Sha256") (sha256hexS bodyStr)]

/-- Header injection steps of getSignatureHeaders (lines 106-122): the date
header, the security-token header when a session token is present (truthy),
and the content-hash header. -/
def injectHeaders (o : SignOptions) (timestamp : String) : Headers :=
  let headers1 := setHeader o.headers "X-Date" timestamp
  let headers2 := match o.sessionToken with
    | some t => if t = "" then headers1 else setHeader headers1 "x-security-token" t
    | none => headers1
  setHeader headers2 "X-Content-Sha256" (sha256hexS (bodyStrOf o.body))

/-- All intermediate values of VolcSigner.getSignatureHeaders.  The wall-clock
timestamp (ISO-8601 basic, second precision) is an explicit parameter; the
date stamp is its first eight characters. -/
structure SignResult where
  headersOut : Headers
  canonicalString : String
  credentialScope : String
  stringToSign : String
  signature : String
  authHeader : String
  allHeaders : Headers

def signParts (o : SignOptions) (timestamp : String) : SignResult :=
  let dateStr := timestamp.take 8
  let headers3 := injectHeaders o timestamp
  let bodyStr := bodyStrOf o.body
  let canonicalString := createCanonicalString o headers3 bodyStr
  let credentialScope := joinSepS "/" [dateStr, o.region, o.serviceName, "request"]
  let stringToSign :=
    joinSepS "\n" ["HMAC-SHA256", timestamp, credentialScope, sha256hexS canonicalString]
  let kDate := hmacSHA256 (strBytes ("" ++ o.secretAccessKey)) (strBytes dateStr)
  let kRegion := hmacSHA256 kDate (strBytes o.region)
  let kService := hmacSHA256 kRegion (strBytes o.serviceName)
  let signingKey := hmacSHA256 kService (strBytes "request")
  let signature := hexOfBytes (hmacSHA256 signingKey (strBytes stringToSign))
  let signedHeaders := getSignedHeaders headers3
  let authHeader := "HMAC-SHA256 Credential=" ++ o.accessKeyId ++ "/" ++ credentialScope ++
    ", SignedHeaders=" ++ signedHeaders ++ ", Signature=" ++ signature
  { headersOut := headers3, canonicalString, credentialScope, stringToSign, signature,
    authHeader, allHeaders := setHeader headers3 "Authorization" authHeader }

/-- signRequest: the augmented header map, Authorization included. -/
def signRequest (o : SignOptions) (timestamp : String) : Headers :=
  (signParts o timestamp).allHeaders

/- ===== makeRequest of the application component (part_000 lines 494-530) ===== -/

structure ServiceCfg where
  endpoint : String
  region : String
  serviceName : String

structure Credentials where
  accessKeyId : String
  secretAccessKey : String

/-- One fetch invocation: URL, query string appended to it, method, headers,
body, and the abort signal passed along. -/
structure FetchCall where
  url : String
  urlQuery : List (String × String)
  method : String
  headers : Headers
  body : String
  signalId : Nat

/-- makeRequest: JSON.stringify(payload) is computed once into bodyString and
that one string is used both for signing and as the transmitted fetch body;
`payloadStr` stands for that stringify result. -/
def makeRequest (svc : ServiceCfg) (action version method payloadStr : String)
    (creds : Credentials) (proxyUrl : String) (signalId : Nat) (timestamp : String) :
    FetchCall :=
  let queryParams := [("Action", action), ("Version", version)]
  let bodyString := payloadStr
  let signatureHeaders := signRequest
    { method := method, pathname := "/",
      params := [(unitsOf "Action", QueryVal.vstr (unitsOf action)),
                 (unitsOf "Version", QueryVal.vstr (unitsOf version))],
      headers := [("Content-Type", "application/json")],
      body := some bodyString,
      region := svc.region, serviceName := svc.serviceName,
      accessKeyId := creds.accessKeyId, secretAccessKey := creds.secretAccessKey,
      sessionToken := none } timestamp
  { url := if proxyUrl = "" then svc.endpoint else proxyUrl ++ svc.endpoint,
    urlQuery := queryParams, method := method, headers := signatureHeaders,
    body := bodyString, signalId := signalId }

/- ===== The last line of a string (vocabulary used by the specification) ===== -/

/-- Split a character list at newlines (the split-on-separator semantics:
`n + 1` fields for `n` separators). -/
def lineSplit : List Char → List (List Char)
  | [] => [[]]
  | c :: rest =>
      if c = '\n' then [] :: lineSplit rest
      else
        match lineSplit rest with
        | [] => [[c]]
        | l :: ls => (c :: l) :: ls

def lastOr : List (List Char) → List Char
  | [] => []
  | [x] => x
  | _ :: y :: ys => lastOr (y :: ys)

/-- The last line of a string. -/
def specLastLine (s : String) : String := ⟨lastOr (lineSplit s.data)⟩

theorem lineSplit_ne_nil (l : List Char) : lineSplit l ≠ [] := by
  cases l with
  | nil => simp [lineSplit]
  | cons c rest =>
    by_cases hc : c = '\n'
    · simp [lineSplit, hc]
    · simp only [lineSplit, if_neg hc]
      cases h : lineSplit rest <;> simp

theorem lastOr_append (xs : List (List Char)) {ys : List (List Char)} (h : ys ≠ []) :
    lastOr (xs ++ ys) = lastOr ys := by
  induction xs with
  | nil => rfl
  | cons x xs ih =>
    cases hxy : xs ++ ys with
    | nil => exact absurd (List.append_eq_nil.mp hxy).2 h
    | cons z zs =>
      calc lastOr ((x :: xs) ++ ys) = lastOr (x :: z :: zs) := by rw [List.cons_append, hxy]
        _ = lastOr (z :: zs) := rfl
        _ = lastOr (xs ++ ys) := by rw [hxy]
        _ = lastOr ys := ih

theorem lineSplit_append (a b : List Char) :
    lineSplit (a ++ '\n' :: b) = lineSplit a ++ lineSplit b := by
  induction a with
  | nil => simp [lineSplit]
  | cons c a ih =>
    by_cases hc : c = '\n'
    · subst hc
      simp [lineSplit, ih]
    · show lineSplit (c :: (a ++ '\n' :: b)) = lineSplit (c :: a) ++ lineSplit b
      simp only [lineSplit, if_neg hc]
      rw [ih]
      cases h : lineSplit a with
      | nil => exact absurd h (lineSplit_ne_nil a)
      | cons l ls => simp

theorem lineSplit_no_newline {l : List Char} (h : '\n' ∉ l) : lineSplit l = [l] := by
  induction l with
  | nil => rfl
  | cons c rest ih =>
    simp only [List.mem_cons, not_or] at h
    have hc : ¬(c = '\n') := fun e => h.1 e.symm
    simp [lineSplit, hc, ih h.2]

theorem specLastLine_append (x y : String) : specLastLine (x ++ "\n" ++ y) = specLastLine y := by
  have hd : (x ++ "\n" ++ y).data = x.data ++ '\n' :: y.data := by
    simp [String.data_append]
  unfold specLastLine
  rw [hd, lineSplit_append, lastOr_append _ (lineSplit_ne_nil _)]

theorem specLastLine_no_newline {s : String} (h : '\n' ∉ s.data) : specLastLine s = s := by
  simp only [specLastLine, lineSplit_no_newline h]
  rfl

theorem hexDigitChar_ne_newline : ∀ i, i < 16 → hexDigitChar i ≠ '\n' := by decide

theorem no_newline_in_hexOfBytes (bs : List Nat) : '\n' ∉ (hexOfBytes bs).data := by
  simp only [hexOfBytes]
  intro hmem
  rw [List.mem_flatMap] at hmem
  obtain ⟨b, _hb, hc⟩ := hmem
  simp only [byteHexChars, List.mem_cons, List.not_mem_nil, or_false] at hc
  rcases hc with h1 | h2
  · exact hexDigitChar_ne_newline _ (Nat.mod_lt _ (by decide)) h1.symm
  · exact hexDigitChar_ne_newline _ (Nat.mod_lt _ (by decide)) h2.symm

theorem sha256hexS_ne_empty (s : String) : sha256hexS s ≠ "" := by
  intro h
  have hd : (sha256hexS s).data = [] := by rw [h]
  simp [sha256hexS, hexOfBytes, sha256Bytes, wordBytes, byteHexChars] at hd

/- ===== Header-map lemmas ===== -/

theorem getHeader_setHeader_self (hs : Headers) (k v : String) :
    getHeader (setHeader hs k v) k = some v := by
  induction hs with
  | nil => simp [setHeader, getHeader]
  | cons p rest ih =>
    obtain ⟨k0, v0⟩ := p
    by_cases h : k0 = k
    · simp [setHeader, h, getHeader]
    · simp [setHeader, h, getHeader, ih]

theorem getHeader_setHeader_ne (hs : Headers) {k k2 : String} (v : String) (h : k2 ≠ k) :
    getHeader (setHeader hs k v) k2 = getHeader hs k2 := by
  have hk : ¬(k = k2) := fun e => h e.symm
  induction hs with
  | nil => simp [setHeader, getHeader, hk]
  | cons p rest ih =>
    obtain ⟨k0, v0⟩ := p
    by_cases h0 : k0 = k
    · subst h0
      simp [setHeader, getHeader, hk]
    · simp [setHeader, h0, getHeader, ih]

theorem jsOrS_empty (s : String) : jsOrS s "" = s := by
  by_cases h : s = "" <;> simp [jsOrS, h]

/- ===== The canonical string of a signing run ===== -/

theorem injectHeaders_content_hash (o : SignOptions) (ts : String) :
    getHeader (injectHeaders o ts) "X-Content-Sha256" = some (sha256hexS (bodyStrOf o.body)) := by
  simp only [injectHeaders]
  exact getHeader_setHeader_self _ _ _

theorem signParts_canonicalString (o : SignOptions) (ts : String) :
    (signParts o ts).canonicalString =
      joinSepS "\n"
        [o.method.toUpper,
         jsOrS o.pathname "/",
         strOfUnits (queryParamsToString o.params),
         getCanonicalHeaders (injectHeaders o ts) ++ "\n",
         getSignedHeaders (injectHeaders o ts),
         sha256hexS (bodyStrOf o.body)] := by
  simp only [signParts, createCanonicalString]
  rw [injectHeaders_content_hash, jsOrS_empty]
  simp only [jsOrOptS]
  simp [jsOrS]

theorem specLastLine_joinSix (a b c d e f : String) (hf : '\n' ∉ f.data) :
    specLastLine (joinSepS "\n" [a, b, c, d, e, f]) = f := by
  show specLastLine (a ++ "\n" ++ (b ++ "\n" ++ (c ++ "\n" ++ (d ++ "\n" ++ (e ++ "\n" ++ f))))) = f
  rw [specLastLine_append, specLastLine_append, specLastLine_append, specLastLine_append,
    specLastLine_append]
  exact specLastLine_no_newline hf

theorem canonical_lastLine (o : SignOptions) (ts : String) :
    specLastLine (signParts o ts).canonicalString = sha256hexS (bodyStrOf o.body) := by
  rw [signParts_canonicalString]
  exact specLastLine_joinSix _ _ _ _ _ _ (no_newline_in_hexOfBytes _)

/- ===== Claims C1-C4 ===== -/

/-- The request of claim C1: method POST, pathname "/", empty query map, body
the serialized empty JSON object. -/
def c1Request : SignOptions :=
  { method := "POST", pathname := "/", params := [],
    headers := [("Content-Type", "application/json")],
    body := some "\x7b\x7d",
    region := "cn-north-1", serviceName := "cv",
    accessKeyId := "AKexample", secretAccessKey := "SKexample", sessionToken := none }

/-- Claim C1, counterexample: for the POST request with pathname "/", empty
query and body the empty JSON object, the last line of the canonical string is
NOT the hex SHA-256 digest of the empty string — the body object is truthy, so
the digest of its serialization is used. -/
theorem c1_counterexample :
    specLastLine ((signParts c1Request "20240101T000000Z").canonicalString) ≠ sha256hexS "" := by
  rw [canonical_lastLine]
  decide

/-- Claim C1, amended: for that request the last line of the canonical string
is the hex SHA-256 digest of the transmitted body string (the serialized empty
object), not of the empty string. -/
theorem c1_last_line_is_body_hash :
    ∀ ts : String, specLastLine ((signParts c1Request ts).canonicalString) =
      sha256hexS "\x7b\x7d" :=
  fun ts => canonical_lastLine c1Request ts

theorem getHeader_signRequest_hash (o : SignOptions) (ts : String) :
    getHeader (signRequest o ts) "X-Content-Sha256" = some (sha256hexS (bodyStrOf o.body)) := by
  rw [show signRequest o ts =
    setHeader (injectHeaders o ts) "Authorization" (signParts o ts).authHeader from rfl]
  rw [getHeader_setHeader_ne _ _ (by decide : ("X-Content-Sha256" : String) ≠ "Authorization")]
  exact injectHeaders_content_hash o ts

/-- Claim C2: for every request the injected X-Content-Sha256 header equals the
hex SHA-256 digest of the body string used, the last line of the canonical
string is that same value, and in makeRequest the header hashes the exact
string transmitted as the fetch body. -/
theorem c2_content_hash_consistency :
    (∀ (o : SignOptions) (ts : String),
        getHeader (signParts o ts).headersOut "X-Content-Sha256" =
            some (sha256hexS (bodyStrOf o.body)) ∧
          specLastLine (signParts o ts).canonicalString = sha256hexS (bodyStrOf o.body)) ∧
    ∀ (svc : ServiceCfg) (a v m payload : String) (creds : Credentials) (proxy : String)
        (sid : Nat) (ts : String),
      getHeader (makeRequest svc a v m payload creds proxy sid ts).headers "X-Content-Sha256" =
        some (sha256hexS (makeRequest svc a v m payload creds proxy sid ts).body) := by
  constructor
  · intro o ts
    exact ⟨injectHeaders_content_hash o ts, canonical_lastLine o ts⟩
  · intro svc a v m payload creds proxy sid ts
    exact getHeader_signRequest_hash _ _

/-- Claim C3: the canonical string is the newline-join of exactly six parts in
order: uppercased method, pathname defaulting to "/", canonical query string,
canonical headers block plus blank line, signed-header list, hex body digest
(digest of the empty string when there is no body). -/
theorem c3_canonical_six_parts :
    ∀ (o : SignOptions) (ts : String),
      (signParts o ts).canonicalString =
        joinSepS "\n"
          [o.method.toUpper,
           jsOrS o.pathname "/",
           strOfUnits (queryParamsToString o.params),
           getCanonicalHeaders (injectHeaders o ts) ++ "\n",
           getSignedHeaders (injectHeaders o ts),
           sha256hexS (bodyStrOf o.body)] :=
  signParts_canonicalString

/-- Modelled after the spec §4.2 wording: the five-round keyed-hash chain. -/
def specSigningChain (secret dateStamp region service stringToSign : String) : String :=
  let kDate := hmacSHA256 (strBytes secret) (strBytes dateStamp)
  let kRegion := hmacSHA256 kDate (strBytes region)
  let kService := hmacSHA256 kRegion (strBytes service)
  let signingKey := hmacSHA256 kService (strBytes "request")
  hexOfBytes (hmacSHA256 signingKey (strBytes stringToSign))

/-- Modelled after the spec §4.2 wording: the string to sign. -/
def specStringToSign (ts scope canonical : String) : String :=
  joinSepS "\n" ["HMAC-SHA256", ts, scope, sha256hexS canonical]

/-- Claim C4: the signature is the five-round HMAC-SHA256 chain over
secret/dateStamp/region/serviceName/"request" applied to the string to sign,
which joins the algorithm constant, timestamp, credential scope
dateStamp/region/serviceName/request, and the hex digest of the canonical
string. -/
theorem c4_signature_keyed_hash_chain :
    ∀ (o : SignOptions) (ts : String),
      (signParts o ts).stringToSign =
          specStringToSign ts (joinSepS "/" [ts.take 8, o.region, o.serviceName, "request"])
            (signParts o ts).canonicalString ∧
        (signParts o ts).signature =
          specSigningChain o.secretAccessKey (ts.take 8) o.region o.serviceName
            (signParts o ts).stringToSign := by
  intro o ts
  exact ⟨rfl, rfl⟩

/- ===== Sort-invariance machinery for the canonical query string ===== -/

theorem insertionSort_eq_of_perm {l₁ l₂ : List JSStr} (h : l₁.Perm l₂) :
    List.insertionSort (· ≤ ·) l₁ = List.insertionSort (· ≤ ·) l₂ :=
  List.eq_of_perm_of_sorted
    ((List.perm_insertionSort _ l₁).trans (h.trans (List.perm_insertionSort _ l₂).symm))
    (List.sorted_insertionSort _ l₁) (List.sorted_insertionSort _ l₂)

/-- Two query values are the same up to reordering of an array value. -/
inductive QVEquiv : QueryVal → QueryVal → Prop
  | refl (v : QueryVal) : QVEquiv v v
  | arr {a b : List JSStr} (h : a.Perm b) : QVEquiv (QueryVal.varr a) (QueryVal.varr b)

inductive OptEquiv : Option QueryVal → Option QueryVal → Prop
  | none : OptEquiv none none
  | some {v₁ v₂ : QueryVal} (h : QVEquiv v₁ v₂) : OptEquiv (some v₁) (some v₂)

/-- Two query-parameter maps with the same entries: one is a permutation of
the other up to reordering inside array values. -/
def paramsEquiv (p q : List (JSStr × QueryVal)) : Prop :=
  ∃ r, p.Perm r ∧ List.Forall₂ (fun e f => e.1 = f.1 ∧ QVEquiv e.2 f.2) r q

theorem renderVal_equiv (key : JSStr) {v₁ v₂ : QueryVal} (h : QVEquiv v₁ v₂) :
    renderVal key (some v₁) = renderVal key (some v₂) := by
  cases h with
  | refl v => rfl
  | arr hab =>
    simp only [renderVal]
    rw [insertionSort_eq_of_perm (hab.map uriEscape)]

theorem renderVal_optEquiv (key : JSStr) {o₁ o₂ : Option QueryVal} (h : OptEquiv o₁ o₂) :
    renderVal key o₁ = renderVal key o₂ := by
  cases h with
  | none => rfl
  | some hv => exact renderVal_equiv key hv

theorem jsLookupQ_perm {p q : List (JSStr × QueryVal)} (hp : p.Perm q) :
    (p.map Prod.fst).Nodup → ∀ k, jsLookupQ p k = jsLookupQ q k := by
  induction hp with
  | nil => intro _ _; rfl
  | cons x hp ih =>
    intro hnd k
    obtain ⟨k0, v0⟩ := x
    simp only [List.map_cons, List.nodup_cons] at hnd
    by_cases hk : k0 = k
    · simp [jsLookupQ, hk]
    · simp [jsLookupQ, hk, ih hnd.2 k]
  | swap x y l =>
    intro hnd k
    obtain ⟨kx, vx⟩ := x
    obtain ⟨ky, vy⟩ := y
    simp only [List.map_cons, List.nodup_cons, List.mem_cons, not_or] at hnd
    have hxy : ky ≠ kx := hnd.1.1
    by_cases h1 : ky = k <;> by_cases h2 : kx = k
    · exact absurd (h1.trans h2.symm) hxy
    · simp [jsLookupQ, h1, h2]
    · simp [jsLookupQ, h1, h2]
    · simp [jsLookupQ, h1, h2]
  | trans hp1 hp2 ih1 ih2 =>
    intro hnd k
    have hnd2 := ((hp1.map Prod.fst).nodup_iff).mp hnd
    rw [ih1 hnd k, ih2 hnd2 k]

theorem jsLookupQ_forall₂ {r q : List (JSStr × QueryVal)}
    (h : List.Forall₂ (fun e f => e.1 = f.1 ∧ QVEquiv e.2 f.2) r q) (k : JSStr) :
    OptEquiv (jsLookupQ r k) (jsLookupQ q k) := by
  induction h with
  | nil => exact OptEquiv.none
  | cons hx h ih =>
    rename_i a b l₁ l₂
    obtain ⟨ka, va⟩ := a
    obtain ⟨kb, vb⟩ := b
    obtain ⟨hab, hv⟩ := hx
    simp only at hab
    subst hab
    by_cases hk : ka = k
    · simp only [jsLookupQ, if_pos hk]
      exact OptEquiv.some hv
    · simp only [jsLookupQ, if_neg hk]
      exact ih

theorem forall₂_keys {r q : List (JSStr × QueryVal)}
    (h : List.Forall₂ (fun e f => e.1 = f.1 ∧ QVEquiv e.2 f.2) r q) :
    r.map Prod.fst = q.map Prod.fst := by
  induction h with
  | nil => rfl
  | cons hx _ ih => simp [hx.1, ih]

/-- Claim C5: query canonicalization is invariant under permutation of the
entry list and under permutation inside each array value — the canonical query
strings are byte-identical, because keys are sorted and array values are
sorted within a key. -/
theorem c5_query_sort_invariance :
    ∀ p q : List (JSStr × QueryVal), (p.map Prod.fst).Nodup → paramsEquiv p q →
      queryParamsToString p = queryParamsToString q := by
  intro p q hnd hequiv
  obtain ⟨r, hpr, hrq⟩ := hequiv
  have hkeys : (p.map Prod.fst).Perm (q.map Prod.fst) := by
    rw [← forall₂_keys hrq]
    exact hpr.map Prod.fst
  have hrender : ∀ k, renderEntry p k = renderEntry q k := by
    intro k
    unfold renderEntry
    rw [jsLookupQ_perm hpr hnd k]
    exact renderVal_optEquiv k (jsLookupQ_forall₂ hrq k)
  simp only [queryParamsToString]
  rw [insertionSort_eq_of_perm hkeys,
    List.map_congr_left (fun a _ => hrender a)]

/-- Claim C5 witness: a concrete pair of reorderings, array value included. -/
theorem c5_query_sort_invariance_witness :
    queryParamsToString
        [(unitsOf "b", QueryVal.vstr (unitsOf "2")),
         (unitsOf "a", QueryVal.varr [unitsOf "y", unitsOf "x"])] =
      queryParamsToString
        [(unitsOf "a", QueryVal.varr [unitsOf "x", unitsOf "y"]),
         (unitsOf "b", QueryVal.vstr (unitsOf "2"))] :=
  c5_query_sort_invariance _ _ (by decide)
    ⟨[(unitsOf "a", QueryVal.varr [unitsOf "y", unitsOf "x"]),
      (unitsOf "b", QueryVal.vstr (unitsOf "2"))],
      by decide,
      List.Forall₂.cons ⟨rfl, QVEquiv.arr (by decide)⟩
        (List.Forall₂.cons ⟨rfl, QVEquiv.refl _⟩ List.Forall₂.nil)⟩

/- ===== Dropping entries that render empty ===== -/

theorem insertionSort_append_cons (k : JSStr) (a b : List JSStr) :
    List.insertionSort (· ≤ ·) (a ++ k :: b) =
      List.orderedInsert (· ≤ ·) k (List.insertionSort (· ≤ ·) (a ++ b)) :=
  List.eq_of_perm_of_sorted
    (((List.perm_insertionSort _ _).trans List.perm_middle).trans
      (((List.perm_insertionSort _ _).symm.cons k).trans (List.perm_orderedInsert _ _ _).symm))
    (List.sorted_insertionSort _ _)
    (List.Sorted.orderedInsert k _ (List.sorted_insertionSort _ (a ++ b)))

theorem filter_map_orderedInsert (render : JSStr → JSStr) (k : JSStr)
    (hre : render k = []) (s : List JSStr) :
    ((List.orderedInsert (· ≤ ·) k s).map render).filter (fun x => !x.isEmpty) =
      (s.map render).filter (fun x => !x.isEmpty) := by
  induction s with
  | nil => simp [List.orderedInsert, hre]
  | cons y s ih =>
    by_cases hle : k ≤ y
    · simp [List.orderedInsert, hle, hre]
    · simp only [List.orderedInsert, if_neg hle, List.map_cons, List.filter_cons]
      rw [ih]

theorem jsLookupQ_middle_ne {k k2 : JSStr} (h : k2 ≠ k) (v : QueryVal)
    (pre post : List (JSStr × QueryVal)) :
    jsLookupQ (pre ++ (k, v) :: post) k2 = jsLookupQ (pre ++ post) k2 := by
  have hk : ¬(k = k2) := fun e => h e.symm
  induction pre with
  | nil => simp [jsLookupQ, hk]
  | cons p pre ih =>
    obtain ⟨k0, v0⟩ := p
    by_cases h0 : k0 = k2 <;> simp [jsLookupQ, h0, ih]

theorem jsLookupQ_middle_self {k : JSStr} {pre : List (JSStr × QueryVal)}
    (hk : k ∉ pre.map Prod.fst) (v : QueryVal) (post : List (JSStr × QueryVal)) :
    jsLookupQ (pre ++ (k, v) :: post) k = some v := by
  induction pre with
  | nil => simp [jsLookupQ]
  | cons p pre ih =>
    obtain ⟨k0, v0⟩ := p
    simp only [List.map_cons, List.mem_cons, not_or] at hk
    have h0 : ¬(k0 = k) := fun e => hk.1 e.symm
    simp [jsLookupQ, h0, ih hk.2]

/-- An entry whose rendered segment is empty can be removed from the parameter
map without changing the canonical query string (keys unique). -/
theorem qpts_drop_empty_entry (pre post : List (JSStr × QueryVal)) (k : JSStr) (v : QueryVal)
    (hnd : ((pre ++ (k, v) :: post).map Prod.fst).Nodup)
    (hre : renderEntry (pre ++ (k, v) :: post) k = []) :
    queryParamsToString (pre ++ (k, v) :: post) = queryParamsToString (pre ++ post) := by
  have hkeysP : (pre ++ (k, v) :: post).map Prod.fst =
      pre.map Prod.fst ++ k :: post.map Prod.fst := by simp
  have hkeysQ : (pre ++ post).map Prod.fst = pre.map Prod.fst ++ post.map Prod.fst := by simp
  have hknotin : k ∉ pre.map Prod.fst ++ post.map Prod.fst := by
    rw [hkeysP] at hnd
    rw [List.nodup_middle] at hnd
    exact (List.nodup_cons.mp hnd).1
  simp only [queryParamsToString]
  rw [hkeysP, hkeysQ, insertionSort_append_cons, filter_map_orderedInsert _ _ hre]
  have hmap :
      (List.insertionSort (· ≤ ·) (pre.map Prod.fst ++ post.map Prod.fst)).map
          (renderEntry (pre ++ (k, v) :: post)) =
        (List.insertionSort (· ≤ ·) (pre.map Prod.fst ++ post.map Prod.fst)).map
          (renderEntry (pre ++ post)) := by
    apply List.map_congr_left
    intro a ha
    have haQ : a ∈ pre.map Prod.fst ++ post.map Prod.fst :=
      (List.Perm.mem_iff (List.perm_insertionSort _ _)).mp ha
    have hak : a ≠ k := fun e => hknotin (e ▸ haQ)
    unfold renderEntry
    rw [jsLookupQ_middle_ne hak]
  rw [hmap]

/-- Claim C6, counterexample: an entry whose value is the empty string is NOT
dropped — it contributes the segment `a=` to the canonical query string. -/
theorem c6_counterexample :
    queryParamsToString [(unitsOf "a", QueryVal.vstr [])] = unitsOf "a" ++ [0x3D] ∧
      queryParamsToString [(unitsOf "a", QueryVal.vstr [])] ≠ [] := by
  exact ⟨by decide, by decide⟩

/-- Claim C6, amended: entries whose value is undefined or null contribute
nothing to the canonical query string (no key, no equals sign, no separator);
an empty-string value instead contributes a `key=` segment. -/
theorem c6_null_undefined_dropped :
    ∀ (pre post : List (JSStr × QueryVal)) (k : JSStr) (v : QueryVal),
      (v = QueryVal.undef ∨ v = QueryVal.vnull) →
      ((pre ++ (k, v) :: post).map Prod.fst).Nodup →
      queryParamsToString (pre ++ (k, v) :: post) = queryParamsToString (pre ++ post) := by
  intro pre post k v hv hnd
  apply qpts_drop_empty_entry _ _ _ _ hnd
  have hkpre : k ∉ pre.map Prod.fst := by
    have h2 := hnd
    rw [show (pre ++ (k, v) :: post).map Prod.fst =
          pre.map Prod.fst ++ k :: post.map Prod.fst by simp, List.nodup_middle] at h2
    intro hmem
    exact (List.nodup_cons.mp h2).1 (List.mem_append_left _ hmem)
  unfold renderEntry
  rw [jsLookupQ_middle_self hkpre]
  rcases hv with h | h <;> subst h <;> rfl

/-- Claim C6 witness for the amended statement. -/
theorem c6_null_undefined_dropped_witness :
    queryParamsToString
        [(unitsOf "a", QueryVal.vstr (unitsOf "1")), (unitsOf "b", QueryVal.undef)] =
      queryParamsToString [(unitsOf "a", QueryVal.vstr (unitsOf "1"))] :=
  c6_null_undefined_dropped [(unitsOf "a", QueryVal.vstr (unitsOf "1"))] [] (unitsOf "b")
    QueryVal.undef (Or.inl rfl) (by decide)

/- ===== Claim C9: encoding failure never throws ===== -/

theorem lone_surrogate_encode_none :
    ∀ s : JSStr, hasLoneSurrogate s = true → utf16ToUtf8 s = none := by
  intro s
  induction s using hasLoneSurrogate.induct with
  | case1 => simp [hasLoneSurrogate]
  | case2 u h1 l rest2 h2 ih =>
    intro h
    simp only [hasLoneSurrogate, if_pos h1, if_pos h2] at h
    simp [utf16ToUtf8, h1, h2, ih h]
  | case3 u h1 l rest2 h2 =>
    intro _
    simp [utf16ToUtf8, h1, h2]
  | case4 u h1 =>
    intro _
    simp [utf16ToUtf8, h1]
  | case5 u rest h1 h2 =>
    intro _
    rw [utf16ToUtf8.eq_def]
    simp [h1, h2]
  | case6 u rest h1 h2 ih =>
    intro h
    rw [hasLoneSurrogate.eq_def] at h
    simp only [h1, h2] at h
    rw [utf16ToUtf8.eq_def]
    simp [h1, h2, ih h]

theorem renderVal_of_escape_empty (k : JSStr) (hk : uriEscape k = []) (v : QueryVal) :
    renderVal k (some v) = [] := by
  cases v <;> simp [renderVal, hk]

/-- Claim C9: percent-encoding never throws — on a string with a lone
surrogate uriEscape returns the empty string; a key that fails to encode makes
its whole entry contribute nothing, and a value that fails to encode yields a
bare `key=` segment. -/
theorem c9_escape_failure_yields_empty :
    ∀ (s k : JSStr) (v : QueryVal) (pre post : List (JSStr × QueryVal)),
      (hasLoneSurrogate s = true → uriEscape s = []) ∧
        (hasLoneSurrogate k = true → ((pre ++ (k, v) :: post).map Prod.fst).Nodup →
          queryParamsToString (pre ++ (k, v) :: post) = queryParamsToString (pre ++ post)) ∧
        (hasLoneSurrogate s = true → uriEscape k ≠ [] →
          queryParamsToString [(k, QueryVal.vstr s)] = uriEscape k ++ [0x3D]) := by
  intro s k v pre post
  refine ⟨?_, ?_, ?_⟩
  · intro h
    rw [uriEscape, lone_surrogate_encode_none s h]
  · intro h hnd
    apply qpts_drop_empty_entry _ _ _ _ hnd
    have hkpre : k ∉ pre.map Prod.fst := by
      have h2 := hnd
      rw [show (pre ++ (k, v) :: post).map Prod.fst =
            pre.map Prod.fst ++ k :: post.map Prod.fst by simp, List.nodup_middle] at h2
      intro hmem
      exact (List.nodup_cons.mp h2).1 (List.mem_append_left _ hmem)
    have hke : uriEscape k = [] := by rw [uriEscape, lone_surrogate_encode_none k h]
    unfold renderEntry
    rw [jsLookupQ_middle_self hkpre]
    exact renderVal_of_escape_empty k hke v
  · intro hs hk
    have hse : uriEscape s = [] := by rw [uriEscape, lone_surrogate_encode_none s hs]
    show joinU [0x26]
        ((List.map (renderEntry [(k, QueryVal.vstr s)]) (List.insertionSort (· ≤ ·) [k])).filter
          (fun x => !x.isEmpty)) = uriEscape k ++ [0x3D]
    have hsort : List.insertionSort (α := JSStr) (· ≤ ·) [k] = [k] := rfl
    rw [hsort]
    have hrender : renderEntry [(k, QueryVal.vstr s)] k = uriEscape k ++ [0x3D] := by
      unfold renderEntry
      rw [show jsLookupQ [(k, QueryVal.vstr s)] k = some (QueryVal.vstr s) by
        simp [jsLookupQ]]
      simp only [renderVal, if_neg hk, hse, List.append_nil]
    rw [List.map_cons, List.map_nil, hrender]
    have hne : (uriEscape k ++ [0x3D]).isEmpty = false := by
      cases hq : uriEscape k with
      | nil => exact absurd hq hk
      | cons a l => rfl
    simp [List.filter, hne, joinU]

/-- Claim C9 witness: a lone high surrogate as value and as key. -/
theorem c9_escape_failure_yields_empty_witness :
    uriEscape [0xD800] = [] ∧
      queryParamsToString [(unitsOf "a", QueryVal.vstr [0xD800])] = unitsOf "a" ++ [0x3D] ∧
      queryParamsToString
          [(unitsOf "a", QueryVal.vstr (unitsOf "1")), ([0xD800], QueryVal.vstr (unitsOf "2"))] =
        queryParamsToString [(unitsOf "a", QueryVal.vstr (unitsOf "1"))] :=
  ⟨(c9_escape_failure_yields_empty [0xD800] [0xD800] QueryVal.undef [] []).1 rfl,
   (c9_escape_failure_yields_empty [0xD800] (unitsOf "a") QueryVal.undef [] []).2.2 rfl
     (by decide),
   (c9_escape_failure_yields_empty [0xD800] [0xD800] (QueryVal.vstr (unitsOf "2"))
       [(unitsOf "a", QueryVal.vstr (unitsOf "1"))] []).2.1 rfl (by decide)⟩

/- ===== JSON values and dot-path extraction (part_000: getValueByPath) ===== -/

/-- Split a character list at a separator character (JS `split` semantics:
`n + 1` fields for `n` separators). -/
def splitOnChar (sep : Char) : List Char → List (List Char)
  | [] => [[]]
  | c :: rest =>
      if c = sep then [] :: splitOnChar sep rest
      else
        match splitOnChar sep rest with
        | [] => [[c]]
        | l :: ls => (c :: l) :: ls

/-- JavaScript values as the orchestrator sees parsed JSON responses, plus
undefined for absent properties.  Numbers are modelled as integers (the falsy
number of interest is 0). -/
inductive JSValue where
  | undef : JSValue
  | jsNull : JSValue
  | jsBool : Bool → JSValue
  | jsNum : Int → JSValue
  | jsStr : String → JSValue
  | jsArr : List JSValue → JSValue
  | jsObj : List (String × JSValue) → JSValue

/-- JavaScript truthiness. -/
def jsTruthy : JSValue → Bool
  | JSValue.undef => false
  | JSValue.jsNull => false
  | JSValue.jsBool b => b
  | JSValue.jsNum n => n != 0
  | JSValue.jsStr s => s != ""
  | JSValue.jsArr _ => true
  | JSValue.jsObj _ => true

def lookupField : List (String × JSValue) → String → JSValue
  | [], _ => JSValue.undef
  | (k0, v) :: rest, k => if k0 = k then v else lookupField rest k

/-- `acc[part]`: object property, array element at a canonical numeric index,
undefined otherwise. -/
def indexJS : JSValue → String → JSValue
  | JSValue.jsObj fields, part => lookupField fields part
  | JSValue.jsArr l, part =>
      match part.toNat? with
      | some i => if toString i = part then l.getD i JSValue.undef else JSValue.undef
      | none => JSValue.undef
  | _, _ => JSValue.undef

/-- getValueByPath (part_000 lines 49-51): split the path at dots and reduce
with `acc && acc[part]` — a falsy accumulator short-circuits and is itself
returned. -/
def getValueByPath (obj : JSValue) (path : String) : JSValue :=
  ((splitOnChar '.' path.data).map (fun cs => (⟨cs⟩ : String))).foldl
    (fun acc part => if jsTruthy acc then indexJS acc part else acc) obj

/- ===== The submit → poll transition (part_000 lines 626-633) ===== -/

structure AsyncCfg where
  submitResponseIdPath : String

def idErrorMsg (path : String) : String :=
  "Async enabled, but could not find ID at \x27" ++ path ++ "\x27 in response."

inductive SubmitNext where
  | failed : String → SubmitNext
  | startPolling : JSValue → SubmitNext

/-- The Submitted-to-Polling transition of handleSendRequest, entered after a
2xx submit response when asyncConfig is enabled: extract the task id; a falsy
extraction throws the could-not-find error (caught into the failed terminal
state) instead of starting the poll loop. -/
def submitTransition (data : JSValue) (cfg : AsyncCfg) : SubmitNext :=
  let taskId := getValueByPath data cfg.submitResponseIdPath
  if jsTruthy taskId then SubmitNext.startPolling taskId
  else SubmitNext.failed (idErrorMsg cfg.submitResponseIdPath)

def demoSubmitResponse : JSValue :=
  JSValue.jsObj [("data", JSValue.jsObj [("task_id", JSValue.jsStr "T1")])]

/-- Claim C7: extraction at "data.task_id" on the demo response yields "T1";
at "data.missing" it yields no value; and whenever extraction is falsy the run
fails with the could-not-find-ID error and never starts polling. -/
theorem c7_task_id_extraction :
    getValueByPath demoSubmitResponse "data.task_id" = JSValue.jsStr "T1" ∧
      getValueByPath demoSubmitResponse "data.missing" = JSValue.undef ∧
      ∀ (data : JSValue) (cfg : AsyncCfg),
        jsTruthy (getValueByPath data cfg.submitResponseIdPath) = false →
          submitTransition data cfg = SubmitNext.failed (idErrorMsg cfg.submitResponseIdPath) ∧
            ∀ tid, submitTransition data cfg ≠ SubmitNext.startPolling tid := by
  refine ⟨rfl, rfl, ?_⟩
  intro data cfg h
  have ht : submitTransition data cfg =
      SubmitNext.failed (idErrorMsg cfg.submitResponseIdPath) := by
    simp [submitTransition, h]
  exact ⟨ht, fun tid hc => by rw [ht] at hc; exact SubmitNext.noConfusion hc⟩

/-- Claim C7 witness: the failing path on the demo response. -/
theorem c7_task_id_extraction_witness :
    submitTransition demoSubmitResponse ⟨"data.missing"⟩ =
      SubmitNext.failed (idErrorMsg "data.missing") :=
  (c7_task_id_extraction.2.2 demoSubmitResponse ⟨"data.missing"⟩ rfl).1

/- ===== Claim C10: falsy extracted ids are rejected like missing ones ===== -/

def taskResp (v : JSValue) : JSValue :=
  JSValue.jsObj [("data", JSValue.jsObj [("task_id", v)])]

def tidCfg : AsyncCfg := ⟨"data.task_id"⟩

/-- Claim C10 (implicit): a falsy resolved id — 0, the empty string, false, or
null — or a falsy intermediate (propagated unchanged by the reduce) is
rejected exactly like an absent field: the run fails instead of polling. -/
theorem c10_falsy_task_id_rejected :
    (∀ (data : JSValue) (cfg : AsyncCfg),
        jsTruthy (getValueByPath data cfg.submitResponseIdPath) = false →
          submitTransition data cfg = SubmitNext.failed (idErrorMsg cfg.submitResponseIdPath) ∧
            ∀ tid, submitTransition data cfg ≠ SubmitNext.startPolling tid) ∧
      submitTransition (taskResp (JSValue.jsNum 0)) tidCfg =
          SubmitNext.failed (idErrorMsg "data.task_id") ∧
      submitTransition (taskResp (JSValue.jsStr "")) tidCfg =
          SubmitNext.failed (idErrorMsg "data.task_id") ∧
      submitTransition (taskResp (JSValue.jsBool false)) tidCfg =
          SubmitNext.failed (idErrorMsg "data.task_id") ∧
      submitTransition (taskResp JSValue.jsNull) tidCfg =
          SubmitNext.failed (idErrorMsg "data.task_id") ∧
      getValueByPath (JSValue.jsObj [("data", JSValue.jsNull)]) "data.task_id" =
          JSValue.jsNull ∧
      submitTransition (JSValue.jsObj [("data", JSValue.jsNull)]) tidCfg =
          SubmitNext.failed (idErrorMsg "data.task_id") := by
  refine ⟨?_, rfl, rfl, rfl, rfl, rfl, rfl⟩
  intro data cfg h
  have ht : submitTransition data cfg =
      SubmitNext.failed (idErrorMsg cfg.submitResponseIdPath) := by
    simp [submitTransition, h]
  exact ⟨ht, fun tid hc => by rw [ht] at hc; exact SubmitNext.noConfusion hc⟩

/-- Claim C10 witness: the zero task id. -/
theorem c10_falsy_task_id_rejected_witness :
    submitTransition (taskResp (JSValue.jsNum 0)) tidCfg =
      SubmitNext.failed (idErrorMsg "data.task_id") :=
  (c10_falsy_task_id_rejected.1 (taskResp (JSValue.jsNum 0)) tidCfg rfl).1

/- ===== The polling loop (part_000 lines 639-716) ===== -/

structure PollCfg where
  signalId : Nat
  maxDurationMs : Nat
  pollStatusPath : String
  pollSuccessValue : String
  pollFailedValue : Option String

/-- What one loop iteration observes: the elapsed time at the timeout check,
the abort-signal reads before and after the interval wait, and the poll
response body. -/
structure IterObs where
  elapsedMs : Nat
  abortedBeforeWait : Bool
  abortedAfterWait : Bool
  response : JSValue

inductive PollEvent where
  | pollCall : Nat → PollEvent

inductive PollEnd where
  | timedOut : PollEnd
  | abortedReturn : PollEnd
  | succeeded : PollEnd
  | failedTask : PollEnd
  | exhausted : PollEnd

/-- `status === successValue` (strict equality against a config string). -/
def statusEq (status : JSValue) (s : String) : Bool :=
  match status with
  | JSValue.jsStr x => x == s
  | _ => false

/-- `config.pollFailedValue && status === config.pollFailedValue`. -/
def isFailedStatus (cfg : PollCfg) (status : JSValue) : Bool :=
  match cfg.pollFailedValue with
  | some f => !(f == "") && statusEq status f
  | none => false

/-- pollLoop as a function of the observation trace: per iteration the code
checks the timeout, checks the abort signal, waits, checks the abort signal
again, and only then issues the poll call (carrying the run controller
signal) and evaluates the extracted status; unterminated iterations recurse.
React state updates and error-message construction do not affect control flow
and are abstracted into the terminal label. -/
def pollLoop (cfg : PollCfg) : List IterObs → List PollEvent × PollEnd
  | [] => ([], PollEnd.exhausted)
  | o :: rest =>
    if o.elapsedMs > cfg.maxDurationMs then ([], PollEnd.timedOut)
    else if o.abortedBeforeWait then ([], PollEnd.abortedReturn)
    else if o.abortedAfterWait then ([], PollEnd.abortedReturn)
    else
      let status := getValueByPath o.response cfg.pollStatusPath
      if statusEq status cfg.pollSuccessValue then
        ([PollEvent.pollCall cfg.signalId], PollEnd.succeeded)
      else if isFailedStatus cfg status then
        ([PollEvent.pollCall cfg.signalId], PollEnd.failedTask)
      else
        let r := pollLoop cfg rest
        (PollEvent.pollCall cfg.signalId :: r.1, r.2)

/-- Claim C8: if the abort signal is observed set at the post-wait check, the
loop issues no poll call at all from that point on; and every poll call ever
issued carries the run controller signal. -/
theorem c8_cancel_mid_wait_no_poll :
    ∀ (cfg : PollCfg) (o : IterObs) (rest : List IterObs),
      (o.abortedAfterWait = true → (pollLoop cfg (o :: rest)).1 = []) ∧
        ∀ (obs : List IterObs) (e : PollEvent),
          e ∈ (pollLoop cfg obs).1 → e = PollEvent.pollCall cfg.signalId := by
  intro cfg o rest
  constructor
  · intro h
    by_cases h1 : o.elapsedMs > cfg.maxDurationMs
    · simp [pollLoop, h1]
    · by_cases h2 : o.abortedBeforeWait <;> simp [pollLoop, h1, h2, h]
  · intro obs
    induction obs with
    | nil => intro e he; simp [pollLoop] at he
    | cons o2 rest2 ih =>
      intro e he
      by_cases h1 : o2.elapsedMs > cfg.maxDurationMs
      · simp [pollLoop, h1] at he
      · by_cases h2 : o2.abortedBeforeWait
        · simp [pollLoop, h1, h2] at he
        · by_cases h3 : o2.abortedAfterWait
          · simp [pollLoop, h1, h2, h3] at he
          · by_cases h4 :
              statusEq (getValueByPath o2.response cfg.pollStatusPath) cfg.pollSuccessValue
            · simp [pollLoop, h1, h2, h3, h4] at he
              exact he
            · by_cases h5 :
                isFailedStatus cfg (getValueByPath o2.response cfg.pollStatusPath)
              · simp [pollLoop, h1, h2, h3, h4, h5] at he
                exact he
              · simp [pollLoop, h1, h2, h3, h4, h5] at he
                rcases he with he | he
                · exact he
                · exact ih e he

def c8cfg : PollCfg := ⟨7, 120000, "data.status", "done", none⟩

def c8obs : IterObs := ⟨0, false, true, JSValue.jsNull⟩

/-- Claim C8 witness: cancellation observed after the wait on a fresh run. -/
theorem c8_cancel_mid_wait_no_poll_witness : (pollLoop c8cfg [c8obs]).1 = [] :=
  (c8_cancel_mid_wait_no_poll c8cfg c8obs []).1 rfl
